import Mathlib

/-!
Verification development for the avalanchego JSON-RPC client libraries
(health, info and AVM per-service clients).

The per-service clients under src/ are embedded directly.  The shared
collaborators they consume (`utils/rpc.EndpointRequester`, the
`formatting` hex helper, the `ids` and `snow/choices` type packages and
the `api` argument/reply structs) are not part of src/; those are
modelled from the spec, and each such definition carries a doc comment
saying so.

Network responses are abstracted by a pure server oracle: a function
from the dispatched request to the transport outcome, `Except Err R`.
A call-indexed oracle `Nat → Except Err R` models a server whose answer
may change between successive polling calls.
-/

namespace Avago

/-- Modelled from the spec: the error taxonomy of spec section 7 for the
Endpoint Requester (`EncodingError`, `TransportError`, `TimeoutError`,
`RemoteError{code, message}`, `DecodingError`); `utils/rpc` is absent
from src/. -/
inductive Err where
  | encodingError : Err
  | transportError : String → Err
  | timeoutError : Err
  | remoteError : Int → String → Err
  | decodingError : Err
  deriving DecidableEq, Repr

/-- Modelled from the spec: `SendRequest(method, params, resultOut)` of
`rpc.EndpointRequester` (`utils/rpc` is absent from src/).  The server
oracle abstracts steps 3-6 of spec section 4.1 (transmit, wait, receive
a result-or-error envelope).  On a success envelope the result payload
is decoded into the result slot; on any failure the caller-supplied
slot is returned unmodified and the error is reported. -/
def sendRequest {P R : Type} (server : String → P → Except Err R)
    (method : String) (params : P) (resultOut : R) : R × Option Err :=
  match server method params with
  | Except.ok r => (r, none)
  | Except.error e => (resultOut, some e)

/-- Embeds `health.GetLivenessReply`; its Go zero value has
`Healthy = false`. -/
structure GetLivenessReply where
  healthy : Bool
  deriving DecidableEq, Repr

/-- Embeds `health.Client.GetLiveness` (src/api/health/client.go lines
25-29): one `SendRequest("getLiveness", struct{}{}, res)` on a
zero-initialised reply, returning the reply together with the error. -/
def getLiveness (server : String → Unit → Except Err GetLivenessReply) :
    GetLivenessReply × Option Err :=
  sendRequest server "getLiveness" () ⟨false⟩

/-- Loop body of `health.Client.AwaitHealthy` (src/api/health/client.go
lines 34-44), with explicit fuel (the remaining loop iterations of
`for i := 0; i < checks; i++`) and the index `i` of the next
`GetLiveness` call.  `liveness j` is the transport outcome of the
`(j+1)`-th `GetLiveness` call.  The second component counts the
sleep-then-call iterations actually performed: every iteration sleeps
`interval` once and issues exactly one liveness request, so this count
is simultaneously the number of sleeps and of `SendRequest` calls. -/
def awaitHealthyAux (liveness : Nat → Except Err GetLivenessReply)
    (i : Nat) : Nat → Bool × Nat
  | 0 => (false, 0)
  | n + 1 =>
    match liveness i with
    | Except.error _ =>
      let rest := awaitHealthyAux liveness (i + 1) n
      (rest.1, rest.2 + 1)
    | Except.ok res =>
      if res.healthy then (true, 1)
      else
        let rest := awaitHealthyAux liveness (i + 1) n
        (rest.1, rest.2 + 1)

/-- Embeds `health.Client.AwaitHealthy(checks, interval)`
(src/api/health/client.go lines 33-47).  `checks` keeps the Go `int`
type, so a non-positive value runs zero iterations; the Go loop runs
`max 0 checks = checks.toNat` iterations at most.  The result pairs the
Go return value `(healthy bool, err error)` with the observed number of
sleep-then-call iterations.  The sleep `interval` itself is real time
and has no observable effect beyond the iteration count. -/
def awaitHealthy (liveness : Nat → Except Err GetLivenessReply)
    (checks : Int) : (Bool × Option Err) × Nat :=
  let r := awaitHealthyAux liveness 0 checks.toNat
  ((r.1, none), r.2)

theorem awaitHealthyAux_all_errors
    (liveness : Nat → Except Err GetLivenessReply) :
    ∀ n i, (∀ j, j < n → ∃ e, liveness (i + j) = Except.error e) →
      awaitHealthyAux liveness i n = (false, n) := by
  intro n
  induction n with
  | zero => intro i _; rfl
  | succ n ih =>
    intro i h
    obtain ⟨e, he⟩ := h 0 (Nat.succ_pos n)
    have hrec : awaitHealthyAux liveness (i + 1) n = (false, n) := by
      refine ih (i + 1) ?_
      intro j hj
      obtain ⟨e', he'⟩ := h (j + 1) (Nat.succ_lt_succ hj)
      exact ⟨e', by rw [← he']; ring_nf⟩
    simp only [awaitHealthyAux, Nat.add_zero] at he ⊢
    rw [he, hrec]

theorem awaitHealthyAux_le (liveness : Nat → Except Err GetLivenessReply) :
    ∀ n i, (awaitHealthyAux liveness i n).2 ≤ n := by
  intro n
  induction n with
  | zero => intro i; exact Nat.le_refl 0
  | succ n ih =>
    intro i
    simp only [awaitHealthyAux]
    cases h : liveness i with
    | error e => simpa using Nat.succ_le_succ (ih (i + 1))
    | ok res =>
      by_cases hh : res.healthy
      · simp [hh]
      · simpa [hh] using Nat.succ_le_succ (ih (i + 1))

theorem awaitHealthyAux_first_healthy
    (liveness : Nat → Except Err GetLivenessReply) :
    ∀ n i k, k < n →
      (∀ j, j < k → liveness (i + j) ≠ Except.ok ⟨true⟩) →
      liveness (i + k) = Except.ok ⟨true⟩ →
      awaitHealthyAux liveness i n = (true, k + 1) := by
  intro n
  induction n with
  | zero => intro i k hk; exact absurd hk (Nat.not_lt_zero k)
  | succ n ih =>
    intro i k hk hbefore hk_ok
    match k with
    | 0 =>
      simp only [Nat.add_zero] at hk_ok
      simp [awaitHealthyAux, hk_ok]
    | k + 1 =>
      have h0 : liveness i ≠ Except.ok ⟨true⟩ := by
        simpa using hbefore 0 (Nat.succ_pos k)
      have hrec : awaitHealthyAux liveness (i + 1) n = (true, k + 1) := by
        refine ih (i + 1) k (Nat.lt_of_succ_lt_succ hk) ?_ ?_
        · intro j hj
          have := hbefore (j + 1) (Nat.succ_lt_succ hj)
          intro hcon
          exact this (by rw [← hcon]; ring_nf)
        · rw [← hk_ok]; ring_nf
      simp only [awaitHealthyAux]
      cases h : liveness i with
      | error e => simp [hrec]
      | ok res =>
        cases res with
        | mk healthy =>
          cases healthy with
          | true => exact absurd h h0
          | false => simp [hrec]

/-- Always-failing liveness stub: a permanently unreachable endpoint. -/
def errorStub : Nat → Except Err GetLivenessReply :=
  fun _ => Except.error (Err.transportError "connection refused")

/-- Liveness stub that reports unhealthy on calls 1 and 2 and healthy on
call 3. -/
def healthyOnThird : Nat → Except Err GetLivenessReply :=
  fun i => if i < 2 then Except.ok ⟨false⟩ else Except.ok ⟨true⟩

/-- Modelled from the spec: `ids.ID`, the 32-byte identifier type (the
`ids` package is out-of-scope "ID/status type definitions" glue absent
from src/).  Only its Go zero value, `ids.Empty`, matters here. -/
structure ID where
  bytes : List Nat
  deriving DecidableEq, Repr

/-- Modelled from the spec: `ids.Empty`, the all-zero 32-byte ID, which
is also the Go zero value of `ids.ID`. -/
def ID.empty : ID := ⟨List.replicate 32 0⟩

/-- Modelled from the spec: `choices.Status` (the `snow/choices`
package is absent from src/); `Unknown` is its Go zero value and the
value `GetTxStatus` returns on its error path. -/
inductive Status where
  | unknown : Status
  | rejected : Status
  | processing : Status
  | accepted : Status
  deriving DecidableEq, Repr

/-- Modelled from the spec: `api.JSONTxID` (the `api` argument/reply
structs are absent from src/); its Go zero value carries the zero ID,
`ids.Empty`. -/
structure JSONTxID where
  txID : ID
  deriving DecidableEq, Repr

/-- Embeds `avm.GetTxStatusReply`; its Go zero value carries the zero
`choices.Status`, `Unknown`. -/
structure GetTxStatusReply where
  status : Status
  deriving DecidableEq, Repr

/-- Embeds `avm.Client.GetTxStatus` (src/vms/avm/client.go lines
43-52): one `SendRequest("getTxStatus", api.JSONTxID{TxID: txID}, res)`
on a zero-initialised reply; on error it returns `choices.Unknown`
together with the error, otherwise the reply's status. -/
def getTxStatus (server : String → JSONTxID → Except Err GetTxStatusReply)
    (txID : ID) : Status × Option Err :=
  let r := sendRequest server "getTxStatus" ⟨txID⟩ ⟨Status.unknown⟩
  match r.2 with
  | some e => (Status.unknown, some e)
  | none => (r.1.status, none)

/-- Server stub that rejects every request with the error payload
`{code: 7, message: "bad request"}`. -/
def badRequestStub : String → JSONTxID → Except Err GetTxStatusReply :=
  fun _ _ => Except.error (Err.remoteError 7 "bad request")

/-- Immutable configuration an Endpoint Requester is constructed with:
base address, URI path and protocol namespace
(`rpc.NewEndpointRequester(uri, path, base, requestTimeout)`).  The
request timeout is real time and is not modelled. -/
structure RequesterConfig where
  base : String
  path : String
  nsName : String
  deriving DecidableEq, Repr

/-- Embeds `health.NewClient` (src/api/health/client.go lines 18-22):
the health client holds one requester for path `/ext/health` and
namespace `health`. -/
def healthNewClient (uri : String) : RequesterConfig :=
  ⟨uri, "/ext/health", "health"⟩

/-- Embeds `info.NewClient` (src/unnamed/part_000 lines 16-20): the
info client holds one requester for path `/ext/info` and namespace
`info`. -/
def infoNewClient (uri : String) : RequesterConfig :=
  ⟨uri, "/ext/info", "info"⟩

/-- Embeds `avm.NewClient` (src/vms/avm/client.go lines 24-28): the AVM
client holds one requester for path `fmt.Sprintf("/ext/bc/%s", chain)`
and namespace `avm`. -/
def avmNewClient (uri chain : String) : RequesterConfig :=
  ⟨uri, "/ext/bc/" ++ chain, "avm"⟩

/-- The public methods of the AVM client paired with the constant RPC
method name each one passes to `SendRequest`, transcribed in source
order from src/vms/avm/client.go lines 31-437. -/
def avmMethodTable : List (String × String) :=
  [("IssueTx", "issueTx"),
   ("GetTxStatus", "getTxStatus"),
   ("GetTx", "getTx"),
   ("GetUTXOs", "getUTXOs"),
   ("GetAssetDescription", "getAssetDescription"),
   ("GetBalance", "getBalance"),
   ("GetAllBalances", "getAllBalances"),
   ("CreateFixedCapAsset", "createFixedCapAsset"),
   ("CreateVariableCapAsset", "createVariableCapAsset"),
   ("CreateNFTAsset", "createNFTAsset"),
   ("CreateAddress", "createAddress"),
   ("ListAddresses", "listAddresses"),
   ("ExportKey", "exportKey"),
   ("ImportKey", "importKey"),
   ("Send", "send"),
   ("SendMultiple", "send"),
   ("Mint", "mint"),
   ("SendNFT", "sendNFT"),
   ("MintNFT", "mintNFT"),
   ("ImportAVAX", "importAVAX"),
   ("ExportAVAX", "exportAVAX"),
   ("Import", "importAVAX"),
   ("Export", "exportAVAX")]

/-- The RPC method names dispatched by the AVM client, with
multiplicity. -/
def avmRpcNames : List String := avmMethodTable.map Prod.snd

/-- The public methods of the health client paired with the constant
RPC method names of the `SendRequest` calls in their bodies
(src/api/health/client.go lines 25-29).  `AwaitHealthy` is excluded:
it is a polling wrapper whose number of `getLiveness` dispatches
depends on `checks` and on the observed responses (see
`awaitHealthy`). -/
def healthMethodTable : List (String × List String) :=
  [("GetLiveness", ["getLiveness"])]

/-- The public methods of the info client paired with the constant RPC
method names of the `SendRequest` calls in their bodies, transcribed in
source order from src/unnamed/part_000 lines 23-64. -/
def infoMethodTable : List (String × List String) :=
  [("GetNodeID", ["getNodeID"]),
   ("GetNetworkID", ["getNetworkID"]),
   ("GetNetworkName", ["getNetworkName"]),
   ("GetBlockchainID", ["getBlockchainID"]),
   ("Peers", ["peers"]),
   ("IsBootstrapped", ["isBootstrapped"])]

/-- All single-dispatch public client methods of the three per-service
clients, each with the list of RPC method names its body passes to
`SendRequest`. -/
def allMethodTables : List (String × List String) :=
  healthMethodTable ++ infoMethodTable ++
    avmMethodTable.map (fun p => (p.1, [p.2]))

/-- Modelled from the spec: the inverse of one hex digit character, as
used by `formatting.Hex.FromString` (the `formatting` package is
out-of-scope "hex/formatting encoding helpers" absent from src/). -/
def fromHexChar (c : Char) : Option (Fin 16) :=
  let n := c.toNat
  if hd : 48 ≤ n ∧ n ≤ 57 then some ⟨n - 48, by omega⟩
  else if ha : 97 ≤ n ∧ n ≤ 102 then some ⟨n - 87, by omega⟩
  else none

/-- Modelled from the spec: the character sequence of the hex encoding
of a byte slice, two lowercase hex digits per byte, high nibble
first. -/
def hexChars : List (Fin 256) → List Char
  | [] => []
  | b :: bs =>
    Nat.digitChar (b.val / 16) :: Nat.digitChar (b.val % 16) :: hexChars bs

/-- Modelled from the spec: `formatting.Hex{Bytes: b}.String()`, the
hex serialization of a byte slice (the `formatting` package is absent
from src/; the spec describes it only through the round-trip property
and the "structured text" wire encoding). -/
def hexStr (bs : List (Fin 256)) : String := ⟨hexChars bs⟩

/-- Modelled from the spec: decoding a hex character sequence back to
bytes; fails on an odd-length sequence or a non-hex-digit
character. -/
def hexDecode : List Char → Option (List (Fin 256))
  | [] => some []
  | [_] => none
  | c1 :: c2 :: rest =>
    match fromHexChar c1, fromHexChar c2, hexDecode rest with
    | some hi, some lo, some tail =>
      some (⟨hi.val * 16 + lo.val, by
        have h1 := hi.isLt
        have h2 := lo.isLt
        omega⟩ :: tail)
    | _, _, _ => none

/-- Modelled from the spec: `formatting.Hex.FromString` followed by
reading the decoded `Bytes` field. -/
def hexFromString (s : String) : Option (List (Fin 256)) :=
  hexDecode s.data

/-- Modelled from the spec: the encoding marker
`formatting.HexEncoding` carried by the formatted argument/reply
structs (the `formatting` package is absent from src/). -/
inductive EncodingKind where
  | hexEnc : EncodingKind
  deriving DecidableEq, Repr

/-- Modelled from the spec: `api.FormattedTx`, the hex-serialized
transaction with its encoding marker (the `api` package is absent from
src/); its Go zero value carries the empty string. -/
structure FormattedTx where
  tx : String
  encoding : EncodingKind
  deriving DecidableEq, Repr

/-- Modelled from the spec: `api.GetTxArgs` (the `api` package is
absent from src/). -/
structure GetTxArgs where
  txID : ID
  encoding : EncodingKind
  deriving DecidableEq, Repr

/-- Embeds `avm.Client.IssueTx` (src/vms/avm/client.go lines 31-41):
one `SendRequest("issueTx", ...)` whose argument carries the hex
serialization of `txBytes`; on error it returns `ids.Empty` with the
error, otherwise the reply's transaction ID. -/
def avmIssueTx (send : String → FormattedTx → Except Err JSONTxID)
    (txBytes : List (Fin 256)) : ID × Option Err :=
  let r := sendRequest send "issueTx"
    ⟨hexStr txBytes, EncodingKind.hexEnc⟩ ⟨ID.empty⟩
  match r.2 with
  | some e => (ID.empty, some e)
  | none => (r.1.txID, none)

/-- Embeds `avm.Client.GetTx` (src/vms/avm/client.go lines 54-69): one
`SendRequest("getTx", ...)` on a zero-initialised `FormattedTx` reply,
then hex-decoding of the reply's `Tx` field; on either failure it
returns no bytes together with the error. -/
def avmGetTx (send : String → GetTxArgs → Except Err FormattedTx)
    (txID : ID) : Option (List (Fin 256)) × Option Err :=
  let r := sendRequest send "getTx" ⟨txID, EncodingKind.hexEnc⟩
    ⟨"", EncodingKind.hexEnc⟩
  match r.2 with
  | some e => (none, some e)
  | none =>
    match hexFromString r.1.tx with
    | none => (none, some Err.decodingError)
    | some bytes => (some bytes, none)

/-- Server stub that hex-decodes the transaction it receives from
`IssueTx` and answers with an ID built from the decoded bytes, so a
successful reply exhibits exactly what the serialized argument
decoded to. -/
def decodeEchoServer : String → FormattedTx → Except Err JSONTxID :=
  fun _ args =>
    match hexFromString args.tx with
    | some bytes => Except.ok ⟨⟨bytes.map Fin.val⟩⟩
    | none => Except.error Err.decodingError

/-- Modelled from the spec: `api.UserPass` credentials (the `api`
package is absent from src/). -/
structure UserPass where
  username : String
  password : String
  deriving DecidableEq, Repr

/-- Embeds `avm.ImportArgs` as built by `Client.ImportAVAX` and
`Client.Import` (src/vms/avm/client.go lines 370-374 and 406-410). -/
structure ImportArgs where
  userPass : UserPass
  toAddr : String
  sourceChain : String
  deriving DecidableEq, Repr

/-- Embeds `avm.Client.ImportAVAX` (src/vms/avm/client.go lines
368-379): one `SendRequest("importAVAX", ImportArgs{...}, res)` on a
zero-initialised `JSONTxID`; on error it returns `ids.Empty` with the
error, otherwise the reply's transaction ID. -/
def avmImportAVAX (send : String → ImportArgs → Except Err JSONTxID)
    (user : UserPass) (toAddr sourceChain : String) : ID × Option Err :=
  let r := sendRequest send "importAVAX" ⟨user, toAddr, sourceChain⟩ ⟨ID.empty⟩
  match r.2 with
  | some e => (ID.empty, some e)
  | none => (r.1.txID, none)

/-- Embeds `avm.Client.Import` (src/vms/avm/client.go lines 404-412):
the same `SendRequest("importAVAX", ImportArgs{...}, res)` on a
zero-initialised `JSONTxID`, but returning the reply's transaction ID
together with the error unconditionally. -/
def avmImport (send : String → ImportArgs → Except Err JSONTxID)
    (user : UserPass) (toAddr sourceChain : String) : ID × Option Err :=
  let r := sendRequest send "importAVAX" ⟨user, toAddr, sourceChain⟩ ⟨ID.empty⟩
  (r.1.txID, r.2)

theorem fromHexChar_digitChar (n : Fin 16) :
    fromHexChar (Nat.digitChar n.val) = some n := by
  revert n
  decide

theorem hexDecode_hexChars (bs : List (Fin 256)) :
    hexDecode (hexChars bs) = some bs := by
  induction bs with
  | nil => rfl
  | cons b bs ih =>
    have hb := b.isLt
    have h1 : fromHexChar (Nat.digitChar (b.val / 16)) =
        some ⟨b.val / 16, by omega⟩ :=
      fromHexChar_digitChar ⟨b.val / 16, by omega⟩
    have h2 : fromHexChar (Nat.digitChar (b.val % 16)) =
        some ⟨b.val % 16, by omega⟩ :=
      fromHexChar_digitChar ⟨b.val % 16, by omega⟩
    simp only [hexChars, hexDecode, h1, h2, ih]
    refine congrArg some (congrArg (· :: bs) ?_)
    exact Fin.ext (by simp only []; omega)

end Avago

namespace Avago

/-- C1: if every one of the `checks` liveness requests issued by
`AwaitHealthy(checks, interval)` fails with an error, then for any
`checks ≥ 1` the loop performs exactly `checks` sleep-then-call
iterations, swallows every error, and returns `(false, nil)`, never
surfacing any underlying transport error. -/
theorem awaitHealthy_all_errors_swallowed
    (liveness : Nat → Except Err GetLivenessReply) (checks : Int)
    (hpos : 1 ≤ checks)
    (herr : ∀ j, j < checks.toNat → ∃ e, liveness j = Except.error e) :
    awaitHealthy liveness checks = ((false, none), checks.toNat) := by
  unfold awaitHealthy
  rw [awaitHealthyAux_all_errors liveness checks.toNat 0
    (by intro j hj; simpa using herr j hj)]

/-- C1 witness: `AwaitHealthy(3, interval)` against a stub that always
errors returns `(false, nil)` after exactly 3 iterations. -/
theorem awaitHealthy_all_errors_swallowed_witness :
    1 ≤ (3 : Int) ∧ awaitHealthy errorStub 3 = ((false, none), 3) :=
  ⟨by decide,
   awaitHealthy_all_errors_swallowed errorStub 3 (by decide)
     (fun _ _ => ⟨Err.transportError "connection refused", rfl⟩)⟩

/-- C2: `AwaitHealthy(checks, interval)` performs at most `checks`
sleep-then-call iterations, each issuing exactly one liveness request,
and returns `(true, nil)` at the first iteration whose liveness call
succeeds with a healthy reply: if calls `0..k-1` do not succeed healthy
and call `k` does (with `k < checks`), exactly `k+1` iterations run. -/
theorem awaitHealthy_first_healthy
    (liveness : Nat → Except Err GetLivenessReply) (checks : Int) (k : Nat)
    (hk : k < checks.toNat)
    (hbefore : ∀ j, j < k → liveness j ≠ Except.ok ⟨true⟩)
    (hsucc : liveness k = Except.ok ⟨true⟩) :
    (awaitHealthy liveness checks).2 ≤ checks.toNat ∧
      awaitHealthy liveness checks = ((true, none), k + 1) := by
  constructor
  · exact awaitHealthyAux_le liveness checks.toNat 0
  · unfold awaitHealthy
    rw [awaitHealthyAux_first_healthy liveness checks.toNat 0 k hk
      (by intro j hj; simpa using hbefore j hj) (by simpa using hsucc)]

/-- C2 witness: `AwaitHealthy(3, interval)` against a stub unhealthy on
calls 1-2 and healthy on call 3 returns `(true, nil)` having performed
exactly 3 sleep-then-call iterations. -/
theorem awaitHealthy_first_healthy_witness :
    2 < (3 : Int).toNat ∧
      awaitHealthy healthyOnThird 3 = ((true, none), 3) :=
  ⟨by decide,
   (awaitHealthy_first_healthy healthyOnThird 3 2 (by decide)
     (by intro j hj; interval_cases j <;> simp [healthyOnThird])
     (by simp [healthyOnThird])).2⟩

/-- C9: for every `checks ≤ 0`, `AwaitHealthy(checks, interval)` returns
`(false, nil)` immediately, performing zero sleep-then-call iterations,
hence zero sleeps and zero liveness requests. -/
theorem awaitHealthy_nonpositive_checks
    (liveness : Nat → Except Err GetLivenessReply) (checks : Int)
    (hle : checks ≤ 0) :
    awaitHealthy liveness checks = ((false, none), 0) := by
  unfold awaitHealthy
  rw [Int.toNat_of_nonpos hle]
  rfl

/-- C9 witness: `AwaitHealthy(-1, interval)` returns `(false, nil)` with
zero iterations, even against an always-erroring endpoint. -/
theorem awaitHealthy_nonpositive_checks_witness :
    (-1 : Int) ≤ 0 ∧ awaitHealthy errorStub (-1) = ((false, none), 0) :=
  ⟨by decide, awaitHealthy_nonpositive_checks errorStub (-1) (by decide)⟩

/-- C3: every `SendRequest(method, params, resultOut)` call produces
exactly one terminal outcome: either the result slot is populated with
the decoded payload and the returned error is nil, or the returned
error is non-nil and the result slot is returned exactly as the caller
supplied it — never both, never neither. -/
theorem sendRequest_exactly_one_outcome {P R : Type}
    (server : String → P → Except Err R) (method : String) (params : P)
    (resultOut : R) :
    Xor'
      (∃ r, server method params = Except.ok r ∧
        sendRequest server method params resultOut = (r, none))
      (∃ e, server method params = Except.error e ∧
        sendRequest server method params resultOut = (resultOut, some e)) := by
  cases h : server method params with
  | ok r =>
    refine Or.inl ⟨⟨r, rfl, by simp [sendRequest, h]⟩, ?_⟩
    rintro ⟨e, he, -⟩
    simp [h] at he
  | error e =>
    refine Or.inr ⟨⟨e, rfl, by simp [sendRequest, h]⟩, ?_⟩
    rintro ⟨r, hr, -⟩
    simp [h] at hr

/-- C4: when the server answers with an error payload
`{code, message}`, `SendRequest` returns `RemoteError{code, message}`
and leaves any caller-supplied result slot completely unmodified; in
consequence `GetTxStatus` observes only the zero-valued reply and
returns its error-path value `choices.Unknown` together with that
error. -/
theorem sendRequest_remote_error_frame
    (server : String → JSONTxID → Except Err GetTxStatusReply)
    (txID : ID) (code : Int) (msg : String)
    (herr : server "getTxStatus" ⟨txID⟩ =
      Except.error (Err.remoteError code msg)) :
    (∀ resultOut, sendRequest server "getTxStatus" ⟨txID⟩ resultOut =
      (resultOut, some (Err.remoteError code msg))) ∧
      getTxStatus server txID =
        (Status.unknown, some (Err.remoteError code msg)) := by
  constructor
  · intro resultOut
    simp [sendRequest, herr]
  · simp [getTxStatus, sendRequest, herr]

/-- C4 witness: against a stub answering the error payload
`{code: 7, message: "bad request"}`, `GetTxStatus` returns
`choices.Unknown` together with `RemoteError{7, "bad request"}`, and
`SendRequest` leaves the zero-initialised reply untouched. -/
theorem sendRequest_remote_error_frame_witness :
    sendRequest badRequestStub "getTxStatus" ⟨ID.empty⟩ ⟨Status.unknown⟩ =
      (⟨Status.unknown⟩, some (Err.remoteError 7 "bad request")) ∧
      getTxStatus badRequestStub ID.empty =
        (Status.unknown, some (Err.remoteError 7 "bad request")) :=
  ⟨(sendRequest_remote_error_frame badRequestStub ID.empty 7
      "bad request" rfl).1 ⟨Status.unknown⟩,
   (sendRequest_remote_error_frame badRequestStub ID.empty 7
      "bad request" rfl).2⟩

/-- C5 counterexample: the RPC method names dispatched by the AVM
client are not pairwise distinct within the `avm` namespace — the two
distinct public methods `Send` and `SendMultiple` both pass the method
name `"send"` to `SendRequest` (src/vms/avm/client.go lines 253 and
278). -/
theorem avm_method_names_not_unique :
    ¬ avmRpcNames.Nodup ∧
      ("Send", "send") ∈ avmMethodTable ∧
      ("SendMultiple", "send") ∈ avmMethodTable ∧
      ("Send" : String) ≠ "SendMultiple" := by
  decide

/-- C5 amended: within the AVM client's `avm` namespace, every RPC
method name is dispatched by exactly one public method except the
three deliberate alias pairs — `Send`/`SendMultiple` both dispatch
`"send"`, `ImportAVAX`/`Import` both dispatch `"importAVAX"`, and
`ExportAVAX`/`Export` both dispatch `"exportAVAX"`, each of those
names being dispatched by exactly two methods. -/
theorem avm_method_names_unique_up_to_aliases :
    avmRpcNames.count "send" = 2 ∧
      avmRpcNames.count "importAVAX" = 2 ∧
      avmRpcNames.count "exportAVAX" = 2 ∧
      ∀ s ∈ avmRpcNames,
        s = "send" ∨ s = "importAVAX" ∨ s = "exportAVAX" ∨
          avmRpcNames.count s = 1 := by
  decide

/-- C6 counterexample: `AwaitHealthy` is a public method of the health
client, and against an always-erroring endpoint with `checks = 2` it
performs 2 iterations, each issuing one `getLiveness` request through
`SendRequest` — not exactly one `SendRequest` call. -/
theorem awaitHealthy_not_single_dispatch :
    (awaitHealthy errorStub 2).2 = 2 ∧ (2 : Nat) ≠ 1 := by
  exact ⟨rfl, by decide⟩

/-- C6 amended: each per-service client is constructed holding exactly
one Endpoint Requester with fixed path and namespace — `/ext/health` +
`health`, `/ext/info` + `info`, `/ext/bc/<chain>` + `avm` — and every
public client method except the health client's `AwaitHealthy` polling
wrapper issues exactly one `SendRequest` call with a constant method
name and a pre-built argument/result pair; `AwaitHealthy` instead
issues one `getLiveness` request per loop iteration, performing at
most `checks` iterations. -/
theorem clients_fixed_config_single_dispatch (uri chain : String) :
    healthNewClient uri = ⟨uri, "/ext/health", "health"⟩ ∧
      infoNewClient uri = ⟨uri, "/ext/info", "info"⟩ ∧
      avmNewClient uri chain = ⟨uri, "/ext/bc/" ++ chain, "avm"⟩ ∧
      (∀ p ∈ allMethodTables, p.2.length = 1) ∧
      (∀ (liveness : Nat → Except Err GetLivenessReply) (checks : Int),
        (awaitHealthy liveness checks).2 ≤ checks.toNat) := by
  refine ⟨rfl, rfl, rfl, by decide, ?_⟩
  intro liveness checks
  exact awaitHealthyAux_le liveness checks.toNat 0

/-- C7: hex-decoding the string produced by hex-encoding any byte slice
`b` (`formatting.Hex{Bytes: b}.String()` followed by `FromString`)
reproduces `b` exactly; hence `GetTx` recovers exactly the stored
transaction bytes from a reply carrying their hex serialization, and
the argument `IssueTx` serializes decodes back to exactly the original
transaction bytes on the server side. -/
theorem hex_roundtrip_clients (bs : List (Fin 256)) :
    hexFromString (hexStr bs) = some bs ∧
      (∀ txID : ID,
        avmGetTx (fun _ _ => Except.ok ⟨hexStr bs, EncodingKind.hexEnc⟩)
          txID = (some bs, none)) ∧
      avmIssueTx decodeEchoServer bs = (⟨bs.map Fin.val⟩, none) := by
  have hrt : hexFromString (hexStr bs) = some bs := hexDecode_hexChars bs
  refine ⟨hrt, ?_, ?_⟩
  · intro txID
    simp [avmGetTx, sendRequest, hrt]
  · simp [avmIssueTx, sendRequest, decodeEchoServer, hrt]

/-- C8: for every input `(user, to, sourceChain)`, `Import` and
`ImportAVAX` issue the identical request — the method name
`"importAVAX"` with the same `ImportArgs`, so their outcomes agree on
any server and depend only on the server's answer to that one request —
and they return equal `(ids.ID, error)` pairs: `ImportAVAX` returns
`ids.Empty` on error while `Import` returns the zero-valued reply's
`TxID`, which is the same `ids.Empty` because `SendRequest` leaves the
reply unmodified when it returns an error. -/
theorem import_eq_importAVAX
    (send : String → ImportArgs → Except Err JSONTxID)
    (user : UserPass) (toAddr sourceChain : String) :
    avmImport send user toAddr sourceChain =
        avmImportAVAX send user toAddr sourceChain ∧
      ∀ send' : String → ImportArgs → Except Err JSONTxID,
        send "importAVAX" ⟨user, toAddr, sourceChain⟩ =
          send' "importAVAX" ⟨user, toAddr, sourceChain⟩ →
        avmImport send user toAddr sourceChain =
            avmImport send' user toAddr sourceChain ∧
          avmImportAVAX send user toAddr sourceChain =
            avmImportAVAX send' user toAddr sourceChain := by
  constructor
  · cases h : send "importAVAX" ⟨user, toAddr, sourceChain⟩ with
    | ok r => simp [avmImport, avmImportAVAX, sendRequest, h]
    | error e => simp [avmImport, avmImportAVAX, sendRequest, h]
  · intro send' hsame
    constructor <;> simp [avmImport, avmImportAVAX, sendRequest, hsame]

end Avago
